import Mathlib

/-!
# Verification of the `aro_agent` acquisition pipeline

Shallow embedding of the core acquisition pipeline of the repository
(`aro_agent_backend/aro_agent`): the identifier normaliser
(`utils/normalise.py`), the retrying HTTP client (`utils/http.py`), the
paginating fetcher (`agents/fetch.py`), the planner (`agents/discovery.py`),
and the coordinator's year filter, dedup, diff and manifest-count logic
(`agents/coordinator.py`).

Conventions of the embedding:
* Python `str | None` becomes `Option String`; Python truthiness of such a
  value (`if not doi: ...`) is `none` or `some ""` being falsy.
* Python `int | None` becomes `Option Int`; truthiness of `0` is falsy.
* Machine I/O (the HTTP transport, `json.loads`, the filesystem) is made
  explicit: a server is a function from request to response, a JSON parse of
  a page body is a function from the body to the extracted fields, and the
  run directory listing is a list of directory descriptions.
* A Python function that can `raise` returns an explicit outcome/`Except`
  value.
-/

set_option linter.unusedVariables false

namespace AroAgent

/-- Python truthiness of a `str | None` value: `None` and `""` are falsy. -/
def truthyS : Option String → Bool
  | none => false
  | some s => s ≠ ""

/-- Python truthiness of an `int | None` value: `None` and `0` are falsy. -/
def truthyI : Option Int → Bool
  | none => false
  | some n => n ≠ 0

/-! ### String primitives

The Python code uses `str.strip`, `str.lower`, `str.startswith` and slicing.
They are embedded here as structural functions on the character list of a
`String` (the identifiers the pipeline handles are ASCII; Python's `.lower`
and `.strip` coincide with the ASCII behaviour on them). -/

/-- The characters Python's default `str.strip()` removes (ASCII range). -/
def pyIsSpace (c : Char) : Bool :=
  c = ' ' || c = '\t' || c = '\n' || c = '\r' || c = '\x0b' || c = '\x0c'

/-- Python `s.strip()`. -/
def pyStrip (s : String) : String :=
  String.mk (((s.data.dropWhile pyIsSpace).reverse.dropWhile pyIsSpace).reverse)

/-- Python `s.lower()` (ASCII). -/
def lowerStr (s : String) : String := String.mk (s.data.map Char.toLower)

/-- `isPrefixList p l` — whether `p` is a prefix of `l`
(Python `"".join(l).startswith("".join(p))`). -/
def isPrefixList : List Char → List Char → Bool
  | [], _ => true
  | _ :: _, [] => false
  | p :: ps, c :: cs => p = c && isPrefixList ps cs

/-- The characters before the next occurrence of `sep` (all of them when
`sep` does not occur).  For a string that starts with `sep`,
`s.split(sep)[1]` in Python is `takeUntilSep sep (rest after the prefix)`. -/
def takeUntilSep (sep : List Char) : List Char → List Char
  | [] => []
  | c :: cs => if isPrefixList sep (c :: cs) then [] else c :: takeUntilSep sep cs

/-! ## Normaliser (`utils/normalise.py`) -/

/-- Models `re.sub(r"^https?://(dx\.)?doi\.org/", "", doi, flags=re.I)`:
the anchored pattern can match only at position 0, so at most one leading
prefix is removed, case-insensitively.  The longer `dx.` forms are tested
first because the regex consumes the `dx.` group when it is present. -/
def stripDoiPrefix (s : String) : String :=
  let l := (lowerStr s).data
  if isPrefixList "https://dx.doi.org/".toList l then String.mk (s.data.drop 19)
  else if isPrefixList "http://dx.doi.org/".toList l then String.mk (s.data.drop 18)
  else if isPrefixList "https://doi.org/".toList l then String.mk (s.data.drop 16)
  else if isPrefixList "http://doi.org/".toList l then String.mk (s.data.drop 15)
  else s

/-- `normalise_doi` from `utils/normalise.py`:
`if not doi: return None`; strip; remove one leading doi.org prefix; lower. -/
def normalise_doi : Option String → Option String
  | none => none
  | some d => if d = "" then none else some (lowerStr (stripDoiPrefix (pyStrip d)))

/-! ### `extract_arxiv_id` (`utils/normalise.py`)

The function runs two `re.search` calls and falls back to the trimmed input:
1. `re.search(r"(\d{4}\.\d{4,5}(v\d+)?)", s)` — modern IDs (case-sensitive,
   so only a lowercase `v` starts a version suffix);
2. `re.search(r"arxiv\.org/(abs|pdf)/([^/?#]+)", s, re.I)` — legacy URLs,
   returning capture group 2 verbatim (no case folding);
3. otherwise the stripped input `s` itself.
The searches are leftmost-match; greediness of `\d{4,5}` and `(v\d+)?` never
needs backtracking because everything after them is optional. -/

/-- Longest prefix of consecutive ASCII digits. -/
def takeDigits : List Char → List Char
  | [] => []
  | c :: cs => if c.isDigit then c :: takeDigits cs else []

/-- Try to match `\d{4}\.\d{4,5}(v\d+)?` starting exactly at the head of the
list; return the matched characters. -/
def matchModernAt (cs : List Char) : Option (List Char) :=
  match cs with
  | a :: b :: c :: d :: dot :: rest =>
    if a.isDigit && b.isDigit && c.isDigit && d.isDigit && dot = '.' then
      let ds := takeDigits rest
      if ds.length < 4 then none
      else
        let frac := ds.take 5
        let rest2 := rest.drop frac.length
        let ver :=
          match rest2 with
          | 'v' :: r2 =>
            let vd := takeDigits r2
            if vd.length = 0 then [] else 'v' :: vd
          | _ => []
        some ([a, b, c, d, dot] ++ frac ++ ver)
    else none
  | _ => none

/-- Leftmost match of the modern-ID pattern (models `re.search`). -/
def searchModern : List Char → Option (List Char)
  | [] => none
  | c :: cs =>
    match matchModernAt (c :: cs) with
    | some m => some m
    | none => searchModern cs

/-- Case-insensitive character equality (ASCII, as `re.I` behaves here). -/
def lcEq (a b : Char) : Bool := a.toLower = b.toLower

/-- Case-insensitive `startsWith` on character lists. -/
def startsWithCI : List Char → List Char → Bool
  | [], _ => true
  | _ :: _, [] => false
  | p :: ps, c :: cs => lcEq p c && startsWithCI ps cs

/-- Longest prefix of characters not in `/?#` — models greedy `[^/?#]+`. -/
def takeNotDelim : List Char → List Char
  | [] => []
  | c :: cs => if c = '/' || c = '?' || c = '#' then [] else c :: takeNotDelim cs

/-- Try to match `arxiv\.org/(abs|pdf)/([^/?#]+)` (with `re.I`) at the head
of the list; return capture group 2 (the part after `abs/` or `pdf/`). -/
def matchLegacyAt (cs : List Char) : Option (List Char) :=
  if startsWithCI "arxiv.org/".toList cs then
    let rest := cs.drop "arxiv.org/".toList.length
    if startsWithCI "abs/".toList rest || startsWithCI "pdf/".toList rest then
      let cap := takeNotDelim (rest.drop 4)
      if cap.length = 0 then none else some cap
    else none
  else none

/-- Leftmost match of the legacy-URL pattern. -/
def searchLegacy : List Char → Option (List Char)
  | [] => none
  | c :: cs =>
    match matchLegacyAt (c :: cs) with
    | some m => some m
    | none => searchLegacy cs

/-- `extract_arxiv_id` from `utils/normalise.py`. -/
def extract_arxiv_id : Option String → Option String
  | none => none
  | some u =>
    if u = "" then none
    else
      let s := pyStrip u
      match searchModern s.data with
      | some m => some (String.mk m)
      | none =>
        match searchLegacy s.data with
        | some m => some (String.mk m)
        | none => some s

/-! ## Canonical record (`models.py`) -/

/-- The `Record` dataclass from `models.py`. -/
structure Record where
  source : String
  doi : Option String
  arxiv_id : Option String
  title : Option String
  authors : List String
  abstract : Option String
  published : Option String
  url : Option String
  venue : Option String
  pdf_url : Option String
  license : Option String
deriving DecidableEq, Repr

/-- A record with only the identity/date fields set, as the extractor leaves
other fields `None` when a source has no equivalent. -/
def mkRecord (doi arxiv_id published : Option String) : Record :=
  { source := "test", doi := doi, arxiv_id := arxiv_id, title := none,
    authors := [], abstract := none, published := published, url := none,
    venue := none, pdf_url := none, license := none }

/-- Same as `mkRecord` but with a title, for the first-seen-wins scenarios. -/
def mkRecordT (doi arxiv_id published title : Option String) : Record :=
  { mkRecord doi arxiv_id published with title := title }

/-! ## Dedup key and deduplication (`agents/coordinator.py`, lines 338–344)

The coordinator's loop is
```
dedup = {}
for r in records:
    key = r.doi or (f"arxiv:{r.arxiv_id}" if r.arxiv_id else None)
    if key and key not in dedup:
        dedup[key] = r
final = list(dedup.values())
```
A Python dict preserves insertion order, so `final` is the kept records in
input order; the embedding carries the set of already-seen keys. -/

/-- `key = r.doi or (f"arxiv:{r.arxiv_id}" if r.arxiv_id else None)`.
Note there is no lowercasing here: the arXiv ID is used verbatim. -/
def recKey (r : Record) : Option String :=
  if truthyS r.doi then r.doi
  else if truthyS r.arxiv_id then some ("arxiv:" ++ r.arxiv_id.getD "") else none

/-- The dedup loop, with `seen` the key set of the dict built so far. -/
def dedupAux (seen : List String) : List Record → List Record
  | [] => []
  | r :: rs =>
    match recKey r with
    | none => dedupAux seen rs
    | some k => if k ∈ seen then dedupAux seen rs else r :: dedupAux (k :: seen) rs

/-- `final = list(dedup.values())` for the dedup loop run over `records`. -/
def dedupRecords (records : List Record) : List Record := dedupAux [] records

/-- First occurrence of each element, skipping elements of `seen`
(spec-side helper: "distinct non-null keys in first-seen order"). -/
def firstKeys (seen : List String) : List String → List String
  | [] => []
  | k :: ks => if k ∈ seen then firstKeys seen ks else k :: firstKeys (k :: seen) ks

/-- The distinct non-null dedup keys of a record stream, in first-seen order. -/
def distinctKeys (records : List Record) : List String :=
  firstKeys [] (records.filterMap recKey)

/-- Deduplication as the spec words it: for each distinct non-null key, in
first-seen order, keep the first record carrying that key. -/
def specDedup (records : List Record) : List Record :=
  (distinctKeys records).filterMap
    (fun k => records.find? (fun r => decide (recKey r = some k)))

/-! ## Merged extraction stream (`agents/extract.py`, `ExtractAgent.process`)

`process` walks the raw-blob mapping in the fixed order arxiv → crossref →
doaj, extending `out` with the parse of each chunk in list order; a falsy
(missing/empty) entry is skipped.  The per-chunk parsers (`_from_arxiv`,
`_from_crossref`, `_from_doaj`) are abstract parameters here: each maps a raw
body to the records extracted from it. -/

/-- Raw bodies per source (each already in `_each` list form). -/
structure RawBlobs where
  arxiv : List String
  crossref : List String
  doaj : List String

/-- `ExtractAgent.process`, with the three chunk parsers as parameters. -/
def processRecords (fa fc fd : String → List Record) (b : RawBlobs) : List Record :=
  (if b.arxiv.isEmpty then [] else b.arxiv.flatMap fa)
    ++ (if b.crossref.isEmpty then [] else b.crossref.flatMap fc)
    ++ (if b.doaj.isEmpty then [] else b.doaj.flatMap fd)

/-! ## Year filter (`agents/coordinator.py`, `_year_ok`, lines 308–328) -/

/-- `int(published[:4])` for a four-character all-digit prefix. -/
def leadingYearVal (p : String) : Int :=
  ((p.data.take 4).foldl (fun n c => n * 10 + (c.toNat - 48)) 0 : Nat)

/-- `_year_ok` from `CoordinatorAgent.run`.  Mirrors Python truthiness:
the filter is a no-op when `from_year or to_year` is falsy (both bounds
`None` **or `0`**); within an active filter each bound applies iff it `is
not None`. -/
def year_ok (from_year to_year : Option Int) (published : Option String) : Bool :=
  if !(truthyI from_year || truthyI to_year) then true
  else
    match published with
    | none => false
    | some p =>
      if p = "" || p.length < 4 || !((p.data.take 4).all Char.isDigit) then false
      else
        let y := leadingYearVal p
        if (match from_year with | some fy => decide (y < fy) | none => false) then false
        else if (match to_year with | some ty => decide (y > ty) | none => false) then false
        else true

/-- Spec-side year filter, as the amended claim words it: the filter is
active only when some bound is nonzero; when active, a record passes iff its
date has a parseable 4-digit leading year within the given bounds (a `None`
bound is open); otherwise everything passes. -/
def leadYear : Option String → Option Int
  | none => none
  | some s =>
    if 4 ≤ s.length ∧ (s.data.take 4).all Char.isDigit then some (leadingYearVal s) else none

/-- The amended claim's year predicate (see `leadYear`). -/
def specYearPass (from_year to_year : Option Int) (published : Option String) : Bool :=
  if !(truthyI from_year || truthyI to_year) then true
  else
    match leadYear published with
    | none => false
    | some y =>
      (match from_year with | some fy => decide (fy ≤ y) | none => true)
        && (match to_year with | some ty => decide (y ≤ ty) | none => true)

/-! ## Manifest counts (`CoordinatorAgent.run`, lines 304–386)

The run method filters `records` in place at line 330, dedups at lines
339–344, and only *then* (lines 378–386) computes
```
extracted_count = len(records)          # records is already filtered here
records = [r for r in records if _year_ok(r.published)]
counts = {"fetched": extracted_count, "filtered": len(records), "deduped": len(final)}
```
so `fetched` is taken from the already-filtered list, despite the source
comment "# after extraction, before filtering:". -/

structure Counts where
  fetched : Nat
  filtered : Nat
  deduped : Nat
deriving DecidableEq, Repr

/-- The counts produced by `CoordinatorAgent.run` for a given extracted
record list, following the statement order of the source. -/
def runCounts (extracted : List Record) (from_year to_year : Option Int) : Counts :=
  -- line 330: records = [r for r in records if _year_ok(r.published)]
  let records := extracted.filter (fun r => year_ok from_year to_year r.published)
  -- lines 339–344: dedup
  let final := dedupRecords records
  -- line 380: extracted_count = len(records)   (records is the filtered list)
  let extracted_count := records.length
  -- line 383: records = [r for r in records if _year_ok(r.published)]
  let records2 := records.filter (fun r => year_ok from_year to_year r.published)
  -- line 386
  { fetched := extracted_count, filtered := records2.length, deduped := final.length }

/-! ## Run-over-run diff (`agents/coordinator.py`, lines 32–144)

The persisted `results.json` rows are record dicts plus a `primary_id`
field; only the fields used by `_pid` are modelled. -/

/-- A persisted row, restricted to the fields the diff logic reads. -/
structure Row where
  primary_id : Option String
  doi : Option String
  arxiv_id : Option String
  title : Option String
deriving DecidableEq, Repr

/-- `CoordinatorAgent._primary_id_from_row` (lines 32–47; the same function
also exists in `agents/storage.py`):
```
doi = (r.get("doi") or "").strip().lower()
if doi.startswith("https://doi.org/"): doi = doi.split("https://doi.org/")[1]
arxiv = (r.get("arxiv_id") or "").strip().lower()
return doi or (f"arxiv:{arxiv}" if arxiv else None)
```
`split(sep)[1]` is the second field of the Python split, which
`String.splitOn` reproduces. -/
def primaryIdFromRow (r : Row) : Option String :=
  let doi := lowerStr (pyStrip (r.doi.getD ""))
  let doi :=
    if isPrefixList "https://doi.org/".toList doi.data then
      -- `doi.split("https://doi.org/")[1]`: under the `startswith` guard this
      -- is the text between the leading separator and its next occurrence
      String.mk (takeUntilSep "https://doi.org/".toList (doi.data.drop 16))
    else doi
  let arxiv := lowerStr (pyStrip (r.arxiv_id.getD ""))
  if doi ≠ "" then some doi
  else if arxiv ≠ "" then some ("arxiv:" ++ arxiv) else none

/-- `_pid(row)` in `_write_diff_csv`:
`row.get("primary_id") or self._primary_id_from_row(row)`. -/
def rowPid (r : Row) : Option String :=
  match r.primary_id with
  | some p => if p ≠ "" then some p else primaryIdFromRow r
  | none => primaryIdFromRow r

/-- `prev_ids = {pid for pid in (_pid(r) for r in prev_rows) if pid}` —
the truthy primary IDs of the prior run's rows. -/
def prevIds (prev : List Row) : List String :=
  (prev.filterMap rowPid).filter (fun p => p ≠ "")

/-- `new_rows = [r for r in cur_rows if (_pid(r) not in prev_ids)]` —
the rows written to `diff.csv` by `_write_diff_csv`. -/
def diffRows (cur prev : List Row) : List Row :=
  let pids := prevIds prev
  cur.filter (fun r =>
    match rowPid r with
    | none => true
    | some p => !pids.contains p)

/-- One entry of the run-root directory listing, as
`_find_previous_run_dir` inspects it.  `query?` is the (trimmed-later)
`query` field of the directory's `run.json`; `none` models a missing or
unreadable `run.json` (the `continue` branches). -/
structure RunDirInfo where
  name : String
  isDir : Bool
  query? : Option String
  mtime : Nat
deriving DecidableEq, Repr

/-- The candidate filter of `_find_previous_run_dir` (lines 60–81). -/
def isPrevCandidate (query : String) (currentName : String) (d : RunDirInfo) : Bool :=
  d.isDir && d.name ≠ currentName && isPrefixList "run_".toList d.name.data
    && (match d.query? with
        | none => false
        | some q => pyStrip q = pyStrip query)

/-- `candidates.sort(key=mtime, reverse=True); return candidates[0]` —
the stable descending sort keeps the earliest-listed directory among those
sharing the maximal mtime. -/
def pickLatest : List RunDirInfo → Option RunDirInfo
  | [] => none
  | d :: ds =>
    match pickLatest ds with
    | none => some d
    | some e => if e.mtime > d.mtime then some e else some d

/-- `CoordinatorAgent._find_previous_run_dir` over an explicit listing of the
run root. -/
def findPreviousRunDir (query : String) (currentName : String)
    (dirs : List RunDirInfo) : Option RunDirInfo :=
  pickLatest (dirs.filter (isPrevCandidate query currentName))

/-! ## HTTP retry loop (`utils/http.py`, `http_get`, lines 24–56)

One attempt either raises a `requests.RequestException` (transport failure)
or yields a status and body.  The loop body:
* status < 400 → return the response;
* status in {429, 500, 502, 503, 504} → sleep and continue;
* other status ≥ 400 → return the response as-is;
* exception → remember it, sleep and continue.
After `retries` iterations: re-raise the remembered exception if any,
else `raise RuntimeError(...)`.  Sleeping is irrelevant to the modelled
properties and is omitted. -/

/-- Outcome of one `session.get` attempt. -/
inductive Attempt where
  | exc
  | resp (status : Nat) (body : String)
deriving DecidableEq, Repr

/-- How a call to `http_get` ends. -/
inductive HttpRes where
  | ok (status : Nat) (body : String)
  | raisedTransport
  | raisedRuntime
deriving DecidableEq, Repr

/-- `RETRYABLE_STATUS = {429, 500, 502, 503, 504}`. -/
def RETRYABLE_STATUS : List Nat := [429, 500, 502, 503, 504]

/-- The retry loop of `http_get`; `f i` is the outcome of the (i+1)-th
attempt, `fuel` the remaining iterations of `range(retries)`, `lastExc`
whether `last_exc` is set.  Also returns the number of attempts made. -/
def httpGetLoop (f : Nat → Attempt) : Nat → Nat → Bool → HttpRes × Nat
  | i, 0, lastExc => ((if lastExc then .raisedTransport else .raisedRuntime), i)
  | i, fuel + 1, lastExc =>
    match f i with
    | .exc => httpGetLoop f (i + 1) fuel true
    | .resp s b =>
      if s < 400 then (.ok s b, i + 1)
      else if s ∈ RETRYABLE_STATUS then httpGetLoop f (i + 1) fuel lastExc
      else (.ok s b, i + 1)

/-- `http_get` with `retries` attempts drawn from `f`. -/
def http_get (f : Nat → Attempt) (retries : Nat) : HttpRes × Nat :=
  httpGetLoop f 0 retries false

/-! ## Cursor pagination (`agents/fetch.py`, `_paginate_crossref`, lines 37–83)

`call cursor` is the collapsed result of the page's `http_get` (which may
raise); `parse body` yields `(len(items), next_cursor)` as extracted by the
`json.loads` block, whose `except` branch gives `(0, none)`.  The loop:
```
for _ in range(max_pages):
    status, txt, hdrs = http_get(...)
    if status != 200 or not txt: break
    ...parse...
    out.append(txt); fetched += len(items)
    if not items or fetched >= limit or not next_cursor: break
    params["cursor"] = next_cursor
```
The embedding also counts the requests issued. -/

/-- Which exception a pagination run re-raises, when it does. -/
inductive RaiseKind where
  | transport
  | runtime
deriving DecidableEq, Repr

/-- The body of `_paginate_crossref`'s page loop.  Returns the raw bodies
accumulated in `out` (or the propagated raise) and the number of
`http_get` calls issued. -/
def crossrefLoop (call : String → HttpRes) (parse : String → Nat × Option String)
    (limit : Nat) : Nat → String → Nat → List String → Nat →
    Except RaiseKind (List String) × Nat
  | 0, _, _, out, calls => (.ok out, calls)
  | fuel + 1, cursor, fetched, out, calls =>
    match call cursor with
    | .raisedTransport => (.error .transport, calls + 1)
    | .raisedRuntime => (.error .runtime, calls + 1)
    | .ok status txt =>
      if status ≠ 200 || txt = "" then (.ok out, calls + 1)
      else
        let pr := parse txt
        let out' := out ++ [txt]
        let fetched' := fetched + pr.1
        if pr.1 = 0 || limit ≤ fetched' || !truthyS pr.2 then (.ok out', calls + 1)
        else crossrefLoop call parse limit fuel (pr.2.getD "") fetched' out' (calls + 1)

/-- `_paginate_crossref`: cursor starts at the sentinel `"*"`, `fetched = 0`,
`out = []`. -/
def paginateCrossref (call : String → HttpRes) (parse : String → Nat × Option String)
    (limit maxPages : Nat) : Except RaiseKind (List String) × Nat :=
  crossrefLoop call parse limit maxPages "*" 0 [] 0

/-! ## Planner (`agents/discovery.py`, `DiscoveryAgent.plan`, lines 31–139) -/

/-- The `paginate` mapping a plan entry carries.  Crossref uses the key
`rows` for its per-page size, arXiv and DOAJ use `page_size`. -/
structure PagConf where
  strategy : String
  limit : Int
  rows : Option Nat
  page_size : Option Nat
  max_pages : Nat
deriving DecidableEq, Repr

/-- One planned call specification (headers omitted: a constant
User-Agent mapping that no claim touches). -/
structure TaskSpec where
  url : String
  params : List (String × String)
  paginate : PagConf
deriving DecidableEq, Repr

/-- The `enable_sources` dict restricted to the three keys `plan` reads;
`none` models an absent key (`dict.get(key, True)` defaults to `True`). -/
structure EnableSources where
  crossref : Option Bool
  arxiv : Option Bool
  doaj : Option Bool
deriving DecidableEq, Repr

/-- `DiscoveryAgent.plan`.  The source computes
`page_size = min(per_source_limit, 100)` and `pages` at the top, but no task
below uses them: every emitted `paginate` carries the literal `100`. -/
def plan (query : String) (per_source_limit : Int) (enable_sources : EnableSources)
    (from_year to_year : Option Int) : List (String × TaskSpec) :=
  let q := pyStrip query
  let page_size := min per_source_limit 100   -- computed, never used below
  let pages := max 1 ((per_source_limit + page_size - 1) / page_size)
  let crossrefTasks :=
    if (enable_sources.crossref).getD true then
      let cr_filter_parts :=
        (if truthyI from_year then
          [("from-pub-date:" ++ toString (from_year.getD 0) ++ "-01-01")] else [])
        ++ (if truthyI to_year then
          [("until-pub-date:" ++ toString (to_year.getD 0) ++ "-12-31")] else [])
      let baseParams := [("query", q),
        ("select", "DOI,title,author,container-title,issued,URL,license")]
      let params :=
        if cr_filter_parts ≠ [] then
          baseParams ++ [("filter", String.intercalate "," cr_filter_parts)]
        else baseParams
      [("crossref",
        { url := "https://api.crossref.org/works", params := params,
          paginate := { strategy := "crossref", limit := per_source_limit,
                        rows := some 100, page_size := none, max_pages := 50 } })]
    else []
  let arxivTasks :=
    if (enable_sources.arxiv).getD true then
      [("arxiv",
        { url := "https://export.arxiv.org/api/query",
          params := [("search_query", "all:" ++ q), ("sortBy", "submittedDate"),
                     ("sortOrder", "descending")],
          paginate := { strategy := "arxiv", limit := per_source_limit,
                        rows := none, page_size := some 100, max_pages := 50 } })]
    else []
  let doajTasks :=
    if (enable_sources.doaj).getD true then
      [("doaj",
        { url := "https://doaj.org/api/v2/search/articles/" ++ q,
          params := [],
          paginate := { strategy := "doaj", limit := per_source_limit,
                        rows := none, page_size := some 100, max_pages := 50 } })]
    else []
  crossrefTasks ++ arxivTasks ++ doajTasks

/-! ## Concrete example data -/

/-- Ten extracted records: eight in 2020–2021 (among them one duplicate DOI),
one dated 2019 and one dated 2022 — the run of the spec's
"round-trip manifest counts" scenario. -/
def c2ExtractedRecords : List Record :=
  [ mkRecord (some "10.1/a") none (some "2020-01-01"),
    mkRecord (some "10.1/b") none (some "2020-02-01"),
    mkRecord (some "10.1/c") none (some "2020-03-01"),
    mkRecord (some "10.1/d") none (some "2020-04-01"),
    mkRecord (some "10.1/e") none (some "2020-05-01"),
    mkRecord (some "10.1/f") none (some "2021-01-01"),
    mkRecord (some "10.1/g") none (some "2021-02-01"),
    mkRecord (some "10.1/a") none (some "2021-03-01"),
    mkRecord (some "10.1/h") none (some "2019-12-31"),
    mkRecord (some "10.1/i") none (some "2022-01-01") ]

/-! # Theorems -/

/-! ### Helper lemmas about deduplication -/

theorem mem_firstKeys_not_seen {k : String} :
    ∀ (l seen : List String), k ∈ firstKeys seen l → k ∉ seen := by
  intro l
  induction l with
  | nil => intro seen h; simp [firstKeys] at h
  | cons a l ih =>
    intro seen h
    by_cases ha : a ∈ seen
    · simp only [firstKeys, if_pos ha] at h
      exact ih seen h
    · simp only [firstKeys, if_neg ha] at h
      rcases List.mem_cons.mp h with rfl | h
      · exact ha
      · intro hk
        exact ih (a :: seen) h (List.mem_cons_of_mem a hk)

theorem mem_firstKeys_mem {k : String} :
    ∀ (l seen : List String), k ∈ firstKeys seen l → k ∈ l := by
  intro l
  induction l with
  | nil => intro seen h; simp [firstKeys] at h
  | cons a l ih =>
    intro seen h
    by_cases ha : a ∈ seen
    · simp only [firstKeys, if_pos ha] at h
      exact List.mem_cons_of_mem a (ih seen h)
    · simp only [firstKeys, if_neg ha] at h
      rcases List.mem_cons.mp h with rfl | h
      · exact List.mem_cons_self k l
      · exact List.mem_cons_of_mem a (ih (a :: seen) h)

theorem filterMap_congr_mem {α β : Type} {f g : α → Option β} :
    ∀ (l : List α), (∀ a ∈ l, f a = g a) → l.filterMap f = l.filterMap g := by
  intro l
  induction l with
  | nil => intro _; rfl
  | cons a l ih =>
    intro h
    simp only [List.filterMap_cons, h a (List.mem_cons_self a l),
      ih (fun b hb => h b (List.mem_cons_of_mem a hb))]

theorem dedupAux_eq_spec :
    ∀ (l : List Record) (seen : List String),
      dedupAux seen l
        = (firstKeys seen (l.filterMap recKey)).filterMap
            (fun k => l.find? (fun r => decide (recKey r = some k))) := by
  intro l
  induction l with
  | nil => intro seen; simp [dedupAux, firstKeys]
  | cons r rs ih =>
    intro seen
    cases hk : recKey r with
    | none =>
      have hfind : ∀ k, (r :: rs).find? (fun x => decide (recKey x = some k))
          = rs.find? (fun x => decide (recKey x = some k)) := by
        intro k
        simp only [List.find?_cons, hk]
        simp
      simp only [dedupAux, hk, List.filterMap_cons, ih seen]
      exact filterMap_congr_mem _ (fun k _ => (hfind k).symm)
    | some k0 =>
      by_cases hseen : k0 ∈ seen
      · have hfind : ∀ k, k ∈ firstKeys seen (rs.filterMap recKey) →
            (r :: rs).find? (fun x => decide (recKey x = some k))
              = rs.find? (fun x => decide (recKey x = some k)) := by
          intro k hkmem
          have hkne : k0 ≠ k := by
            intro h; exact mem_firstKeys_not_seen _ _ hkmem (h ▸ hseen)
          simp [List.find?_cons, hk, hkne]
        simp only [dedupAux, hk, if_pos hseen, List.filterMap_cons, firstKeys,
          if_pos hseen, ih seen]
        exact filterMap_congr_mem _ (fun k hkm => (hfind k hkm).symm)
      · have hfind : ∀ k, k ∈ firstKeys (k0 :: seen) (rs.filterMap recKey) →
            (r :: rs).find? (fun x => decide (recKey x = some k))
              = rs.find? (fun x => decide (recKey x = some k)) := by
          intro k hkmem
          have hkne : k0 ≠ k := by
            intro h
            exact mem_firstKeys_not_seen _ _ hkmem (h ▸ List.mem_cons_self k0 seen)
          simp [List.find?_cons, hk, hkne]
        have hfr : (r :: rs).find? (fun x => decide (recKey x = some k0)) = some r := by
          simp [List.find?_cons, hk]
        simp only [dedupAux, hk, if_neg hseen, List.filterMap_cons, firstKeys,
          ih (k0 :: seen), hfr]
        congr 1
        exact filterMap_congr_mem _ (fun k hkm => (hfind k hkm).symm)

/-- `dedupRecords` refines the spec's description of dedup. -/
theorem dedupRecords_eq_specDedup (l : List Record) :
    dedupRecords l = specDedup l :=
  dedupAux_eq_spec l []

theorem find?_isSome_of_key_mem {k : String} {l : List Record}
    (h : k ∈ l.filterMap recKey) :
    (l.find? (fun r => decide (recKey r = some k))).isSome := by
  rcases List.mem_filterMap.mp h with ⟨r, hr, hkey⟩
  cases hfind : l.find? (fun x => decide (recKey x = some k)) with
  | some _ => rfl
  | none =>
    have := List.find?_eq_none.mp hfind r hr
    simp [hkey] at this

theorem filterMap_getElem?_of_isSome {α β : Type} {f : α → Option β} :
    ∀ (l : List α), (∀ a ∈ l, (f a).isSome) →
      ∀ i : Nat, (l.filterMap f)[i]? = l[i]?.bind f := by
  intro l
  induction l with
  | nil => intro _ i; simp
  | cons a l ih =>
    intro h i
    rcases hfa : f a with _ | b
    · have := h a (List.mem_cons_self a l)
      simp [hfa] at this
    · have hrest := ih (fun x hx => h x (List.mem_cons_of_mem a hx))
      cases i with
      | zero => simp [List.filterMap_cons, hfa]
      | succ j => simp [List.filterMap_cons, hfa, hrest j]

/-! ### Helper lemmas about the retry and pagination loops -/

theorem httpGetLoop_all_retryable (f : Nat → Attempt) :
    ∀ (fuel i : Nat) (lastExc : Bool),
      (∀ j, j < fuel → ∃ s b, f (i + j) = .resp s b ∧ s ∈ RETRYABLE_STATUS) →
      httpGetLoop f i fuel lastExc
        = ((if lastExc then .raisedTransport else .raisedRuntime), i + fuel) := by
  intro fuel
  induction fuel with
  | zero => intro i lastExc _; simp [httpGetLoop]
  | succ n ih =>
    intro i lastExc h
    obtain ⟨s, b, hf, hs⟩ := h 0 (Nat.succ_pos n)
    have hf' : f i = .resp s b := by simpa using hf
    have hge : ¬ (s < 400) := by
      simp only [RETRYABLE_STATUS, List.mem_cons, List.not_mem_nil, or_false] at hs
      rcases hs with rfl | rfl | rfl | rfl | rfl <;> omega
    have hrest := ih (i + 1) lastExc (fun j hj => by
      have hh := h (j + 1) (by omega)
      have e : i + (j + 1) = i + 1 + j := by omega
      rw [e] at hh
      exact hh)
    simp only [httpGetLoop, hf']
    rw [if_neg hge, if_pos hs, hrest]
    congr 1
    omega

theorem httpGetLoop_all_exc (f : Nat → Attempt) :
    ∀ (fuel i : Nat), (∀ j, j < fuel → f (i + j) = .exc) →
      httpGetLoop f i fuel true = (.raisedTransport, i + fuel) := by
  intro fuel
  induction fuel with
  | zero => intro i _; simp [httpGetLoop]
  | succ n ih =>
    intro i h
    have hf : f i = .exc := by simpa using h 0 (Nat.succ_pos n)
    have hrest := ih (i + 1) (fun j hj => by
      have hh := h (j + 1) (by omega)
      have e : i + (j + 1) = i + 1 + j := by omega
      rw [e] at hh
      exact hh)
    simp only [httpGetLoop, hf, hrest]
    congr 1
    omega

/-- A successful page with a truthy next cursor, items and room under the cap
makes the pagination loop continue with the next cursor. -/
theorem crossrefLoop_continue (call : String → HttpRes)
    (parse : String → Nat × Option String) (limit fuel : Nat) (cursor : String)
    (fetched : Nat) (out : List String) (calls : Nat) (b : String) (n : Nat)
    (c' : String) (hcall : call cursor = .ok 200 b) (hb : b ≠ "")
    (hparse : parse b = (n, some c')) (hn : n ≠ 0) (hlim : fetched + n < limit)
    (hc : c' ≠ "") :
    crossrefLoop call parse limit (fuel + 1) cursor fetched out calls
      = crossrefLoop call parse limit fuel c' (fetched + n) (out ++ [b]) (calls + 1) := by
  simp [crossrefLoop, hcall, hparse, hb, hn, truthyS, hc, Nat.not_le.mpr hlim]

/-- A successful page whose parsed next cursor is absent stops the loop,
still accumulating that page's body. -/
theorem crossrefLoop_stop_no_cursor (call : String → HttpRes)
    (parse : String → Nat × Option String) (limit fuel : Nat) (cursor : String)
    (fetched : Nat) (out : List String) (calls : Nat) (b : String) (n : Nat)
    (hcall : call cursor = .ok 200 b) (hb : b ≠ "") (hparse : parse b = (n, none)) :
    crossrefLoop call parse limit (fuel + 1) cursor fetched out calls
      = (.ok (out ++ [b]), calls + 1) := by
  simp [crossrefLoop, hcall, hparse, hb, truthyS]

/-! ### The claims -/

/-- C3: deduplication iterates the merged record stream in extraction order,
computes `key = doi if present else arxiv:{id} if present else null`, keeps
exactly the first record seen per non-null key (for two records with the
same key, exactly the first survives), and always drops every record whose
key is null: `dedupRecords` equals the spec-side `specDedup` (first record
per distinct non-null key, keys in first-seen order), every surviving record
has a non-null key, and on a two-record stream with one shared key only the
first record survives. -/
theorem c3_dedup_first_seen :
    (∀ rs : List Record, dedupRecords rs = specDedup rs)
    ∧ (∀ (rs : List Record) (r : Record), r ∈ dedupRecords rs → recKey r ≠ none)
    ∧ (∀ (r1 r2 : Record) (k : String), recKey r1 = some k → recKey r2 = some k →
        dedupRecords [r1, r2] = [r1]) := by
  refine ⟨dedupRecords_eq_specDedup, ?_, ?_⟩
  · intro rs r hr
    rw [dedupRecords_eq_specDedup] at hr
    rcases List.mem_filterMap.mp hr with ⟨k, _, hfind⟩
    have := List.find?_some hfind
    simp only [decide_eq_true_eq] at this
    simp [this]
  · intro r1 r2 k h1 h2
    simp [dedupRecords, dedupAux, h1, h2]

/-- Witness for C3: two records sharing DOI `10.1/a` but with different
titles dedup to just the first. -/
theorem c3_dedup_first_seen_witness :
    dedupRecords [mkRecordT (some "10.1/a") none none (some "T1"),
                  mkRecordT (some "10.1/a") none none (some "T2")]
      = [mkRecordT (some "10.1/a") none none (some "T1")] :=
  c3_dedup_first_seen.2.2 _ _ "10.1/a" (by decide) (by decide)

/-- C10: the merged extraction stream concatenates all arXiv records, then
all Crossref records, then all DOAJ records (each source's chunks in
raw-blob order), and the deduplicated output preserves first-occurrence
order: its i-th element is the first record of the stream carrying the i-th
distinct non-null key. -/
theorem c10_dedup_order (fa fc fd : String → List Record) (b : RawBlobs) (i : Nat) :
    processRecords fa fc fd b
      = b.arxiv.flatMap fa ++ b.crossref.flatMap fc ++ b.doaj.flatMap fd
    ∧ (dedupRecords (processRecords fa fc fd b))[i]?
      = ((distinctKeys (processRecords fa fc fd b))[i]?).bind
          (fun k => (processRecords fa fc fd b).find?
            (fun r => decide (recKey r = some k))) := by
  constructor
  · unfold processRecords
    rcases b with ⟨ba, bc, bd⟩
    cases ba <;> cases bc <;> cases bd <;> simp
  · rw [dedupRecords_eq_specDedup]
    unfold specDedup
    exact filterMap_getElem?_of_isSome _
      (fun k hk => find?_isSome_of_key_mem (mem_firstKeys_mem _ _ hk)) i

/-- C2 (code bug): `CoordinatorAgent.run` computes `extracted_count` at line
380 from the list that was already year-filtered at line 330, contradicting
the source's own comment "# after extraction, before filtering:".  On a run
with 10 extracted records, 2 excluded by the 2020–2021 year filter and 1
duplicate among the remaining 8, the manifest records
`{fetched: 8, filtered: 8, deduped: 7}`, not the claimed
`{fetched: 10, filtered: 8, deduped: 7}`. -/
theorem c2_manifest_counts_eval :
    runCounts c2ExtractedRecords (some 2020) (some 2021)
      = { fetched := 8, filtered := 8, deduped := 7 } := by decide

/-- C7 (code bug): `DiscoveryAgent.plan` computes
`page_size = min(per_source_limit, 100)` but never uses it; every emitted
pagination policy carries the literal page size 100.  With
`per_source_limit = 10` the planned page sizes are all 100, not
`min(100, 10) = 10`. -/
theorem c7_plan_page_size_eval :
    ((plan "agents" 10 ⟨none, none, none⟩ none none).map
        (fun p => (p.1, p.2.paginate.rows, p.2.paginate.page_size)))
      = [("crossref", some 100, none), ("arxiv", none, some 100),
         ("doaj", none, some 100)] := by decide

/-- C4 counterexample: the claim says a record with a missing or unparseable
date is dropped whenever *any* bound is given, but with `from_year = 0` given
(and no `to_year`) the filter's Python-truthiness guard
`if not (from_year or to_year)` treats the run as unbounded and an undated
record passes. -/
theorem c4_counterexample : year_ok (some 0) none none = true := by decide

/-- C4 amended: the year filter is a no-op when both bounds are falsy
(`None` or `0`); when some bound is nonzero, a record passes iff its
publication-date string has a parseable 4-digit leading year `y` with
`from_year ≤ y` (when `from_year` is not `None`) and `y ≤ to_year` (when
`to_year` is not `None`), and records with missing or unparseable dates are
dropped.  The boundary examples behave as claimed. -/
theorem c4_year_filter_amended :
    (∀ (fy ty : Option Int) (p : Option String),
      year_ok fy ty p = specYearPass fy ty p)
    ∧ year_ok (some 2020) (some 2021) (some "2020-01-02") = true
    ∧ year_ok (some 2020) (some 2021) (some "2019-12-31") = false
    ∧ year_ok (some 2020) (some 2021) (some "2022-01-01") = false := by
  refine ⟨?_, by decide, by decide, by decide⟩
  intro fy ty p
  unfold year_ok specYearPass leadYear
  cases hact : (truthyI fy || truthyI ty) with
  | false => simp
  | true =>
    simp only [Bool.not_true, Bool.false_eq_true, if_false]
    cases p with
    | none => rfl
    | some s =>
      simp only []
      by_cases hc : 4 ≤ s.length ∧ (s.data.take 4).all Char.isDigit
      · have hne : ¬ (s = "") := by
          intro h
          subst h
          simp [String.length] at hc
        have hlen : ¬ (s.length < 4) := by omega
        rw [if_pos hc, if_neg (by simp [hne, hlen, hc.2])]
        rcases fy with _ | a <;> rcases ty with _ | b
        · simp [truthyI] at hact
        · by_cases h2 : leadingYearVal s > b
          · simp [h2, show ¬ leadingYearVal s ≤ b from by omega]
          · simp [h2, show leadingYearVal s ≤ b from by omega]
        · by_cases h1 : leadingYearVal s < a
          · simp [h1, show ¬ a ≤ leadingYearVal s from by omega]
          · simp [h1, show a ≤ leadingYearVal s from by omega]
        · by_cases h1 : leadingYearVal s < a
          · simp [h1, show ¬ a ≤ leadingYearVal s from by omega]
          · by_cases h2 : leadingYearVal s > b
            · simp [h1, h2, show ¬ leadingYearVal s ≤ b from by omega]
            · simp [h1, h2, show a ≤ leadingYearVal s from by omega,
                show leadingYearVal s ≤ b from by omega]
      · have hcond : (decide (s = "") || decide (s.length < 4)
            || !(s.data.take 4).all Char.isDigit) = true := by
          rcases not_and_or.mp hc with h | h
          · simp [Nat.not_le.mp h]
          · have hall : (s.data.take 4).all Char.isDigit = false := by
              revert h
              cases (s.data.take 4).all Char.isDigit <;> simp
            simp [hall]
        rw [if_neg hc, if_pos hcond]

/-- C6 counterexample: `normalise_doi` is not idempotent on a doubly-prefixed
DOI — the anchored regex strips only one leading `https://doi.org/` per
call, so a second application strips again. -/
theorem c6_counterexample :
    normalise_doi (normalise_doi (some "https://doi.org/https://doi.org/10.1/x"))
      ≠ normalise_doi (some "https://doi.org/https://doi.org/10.1/x") := by decide

/-- C6 amended: `normalise_doi` strips at most one doi.org prefix per call
and does not re-trim or re-null-check its own output, so idempotence holds
exactly on inputs whose normalised form is `None` or is a nonempty,
already-stripped, already-lowercase string with no remaining
`http(s)://(dx.)doi.org/` prefix.  The concrete example
`normalise_doi("https://doi.org/10.1/X") = "10.1/x"` holds as claimed. -/
theorem c6_normalise_doi_amended :
    (∀ (x : Option String) (s : String), normalise_doi x = some s →
      pyStrip s = s → stripDoiPrefix s = s → lowerStr s = s → s ≠ "" →
      normalise_doi (normalise_doi x) = normalise_doi x)
    ∧ normalise_doi (some "https://doi.org/10.1/X") = some "10.1/x" := by
  constructor
  · intro x s h ht hp hl hne
    rw [h]
    show (if s = "" then none else some (lowerStr (stripDoiPrefix (pyStrip s)))) = some s
    rw [if_neg hne, ht, hp, hl]
  · decide

/-- Witness for C6 amended: `10.1/X` normalises to `10.1/x`, which is
trimmed, lowercase, prefix-free and nonempty, so a second application is the
identity on it. -/
theorem c6_normalise_doi_witness :
    normalise_doi (normalise_doi (some "10.1/X")) = normalise_doi (some "10.1/X") :=
  c6_normalise_doi_amended.1 (some "10.1/X") "10.1/x" (by decide) (by decide)
    (by decide) (by decide) (by decide)

/-- C8 counterexample: `extract_arxiv_id` does not lowercase (its fallback
returns the trimmed input verbatim), and the dedup key uses the arXiv ID
verbatim, so two records whose arXiv IDs differ only in case do NOT collide:
both survive dedup. -/
theorem c8_counterexample :
    (extract_arxiv_id (some "CS/0112017")).map lowerStr
        ≠ extract_arxiv_id (some "CS/0112017")
    ∧ (dedupRecords [mkRecord none (some "CS/0112017") none,
        mkRecord none (some "cs/0112017") none]).length = 2 :=
  ⟨by decide, by decide⟩

/-- C8 amended: `extract_arxiv_id` preserves the case of its result (e.g. a
legacy-style bare ID falls through both regexes and is returned verbatim);
the dedup key for a DOI-less record with a truthy arXiv ID is `arxiv:` plus
the ID *verbatim* (no lowercasing, so case-differing IDs do not collide at
dedup); only the diff/persistence-time `_primary_id_from_row` lowercases,
giving `arxiv:` plus the stripped, lowercased ID. -/
theorem c8_case_amended :
    extract_arxiv_id (some "CS/0112017") = some "CS/0112017"
    ∧ (∀ r : Record, truthyS r.doi = false → truthyS r.arxiv_id = true →
        recKey r = some ("arxiv:" ++ r.arxiv_id.getD ""))
    ∧ (∀ (a : String) (t : Option String), lowerStr (pyStrip a) ≠ "" →
        rowPid ⟨none, none, some a, t⟩ = some ("arxiv:" ++ lowerStr (pyStrip a))) := by
  refine ⟨by decide, ?_, ?_⟩
  · intro r h1 h2
    simp [recKey, h1, h2]
  · intro a t h4
    have hempty : lowerStr (pyStrip ((none : Option String).getD "")) = "" := by decide
    have hpre : isPrefixList "https://doi.org/".toList ("" : String).data = false := by
      decide
    simp only [rowPid, primaryIdFromRow, hempty, hpre, Bool.false_eq_true, if_false,
      Option.getD_some]
    simp [h4]

/-- Witness for C8 amended: a modern arXiv ID yields the verbatim dedup key
and the lowercased diff-time primary ID. -/
theorem c8_case_amended_witness :
    recKey (mkRecord none (some "2401.12345") none)
        = some ("arxiv:" ++ (mkRecord none (some "2401.12345") none).arxiv_id.getD "")
    ∧ rowPid ⟨none, none, some "2401.12345", none⟩
        = some ("arxiv:" ++ lowerStr (pyStrip "2401.12345")) :=
  ⟨c8_case_amended.2.1 _ (by decide) (by decide),
   c8_case_amended.2.2 "2401.12345" none (by decide)⟩

/-- C1 counterexample: with a server answering 503 on every attempt,
`http_get` makes exactly `retries` attempts and then hits
`raise RuntimeError(...)` (since `last_exc` is `None`), and
`_paginate_crossref` has no handler, so the raise propagates instead of the
pagination loop "stopping without raising" with partial results. -/
theorem c1_counterexample :
    http_get (fun _ => .resp 503 "err") 5 = (.raisedRuntime, 5)
    ∧ (paginateCrossref (fun _ => (http_get (fun _ => .resp 503 "err") 5).1)
        (fun _ => (0, none)) 200 50).1 = .error .runtime :=
  ⟨by decide, rfl⟩

/-- C1 amended: if every attempt of a request returns a retryable status,
`http_get` makes exactly `retries` attempts and then raises `RuntimeError`
(which the pagination loop does not catch — it propagates, and no partial
result list is produced for that source); if every attempt fails at the
transport level, the transport failure is re-raised after exactly `retries`
attempts. -/
theorem c1_retry_exhaustion_amended (f : Nat → Attempt) (retries : Nat) :
    ((∀ i, i < retries → ∃ s b, f i = .resp s b ∧ s ∈ RETRYABLE_STATUS) →
      http_get f retries = (.raisedRuntime, retries))
    ∧ (0 < retries → (∀ i, i < retries → f i = .exc) →
      http_get f retries = (.raisedTransport, retries))
    ∧ (∀ (call : String → HttpRes) (parse : String → Nat × Option String)
        (limit fuel : Nat), call "*" = .raisedRuntime →
        paginateCrossref call parse limit (fuel + 1) = (.error .runtime, 1)) := by
  refine ⟨?_, ?_, ?_⟩
  · intro h
    have := httpGetLoop_all_retryable f retries 0 false (fun j hj => by
      simpa using h j hj)
    simpa [http_get] using this
  · intro hpos h
    obtain ⟨n, rfl⟩ : ∃ n, retries = n + 1 := ⟨retries - 1, by omega⟩
    have hf0 : f 0 = .exc := h 0 (by omega)
    have hrest := httpGetLoop_all_exc f n 1 (fun j hj => by
      have hh := h (1 + j) (by omega)
      simpa using hh)
    simp only [http_get, httpGetLoop, hf0, hrest]
    congr 1
    omega
  · intro call parse limit fuel hcall
    simp [paginateCrossref, crossrefLoop, hcall]

/-- Witness for C1 amended: three all-500 attempts end in `RuntimeError`,
three transport failures end in the re-raised transport error, and a page
request that raises aborts the pagination with that raise after one call. -/
theorem c1_retry_exhaustion_witness :
    http_get (fun _ => .resp 500 "x") 3 = (.raisedRuntime, 3)
    ∧ http_get (fun _ => .exc) 3 = (.raisedTransport, 3)
    ∧ paginateCrossref (fun _ => .raisedRuntime) (fun _ => (0, none)) 10 7
        = (.error .runtime, 1) :=
  ⟨(c1_retry_exhaustion_amended (fun _ => .resp 500 "x") 3).1
      (fun i _ => ⟨500, "x", rfl, by decide⟩),
   (c1_retry_exhaustion_amended (fun _ => .exc) 3).2.1 (by decide) (fun i _ => rfl),
   (c1_retry_exhaustion_amended (fun _ => .exc) 3).2.2
      (fun _ => .raisedRuntime) (fun _ => (0, none)) 10 6 rfl⟩

/-- C9: cursor pagination accumulates every fetched page's body and stops
without a further request when the next cursor is absent: for a server whose
three successive pages succeed, the first two carrying items and a next
cursor (cap unreached), the third carrying no next cursor, the fetcher
returns exactly the three raw bodies and issues exactly 3 requests.  (The
other stop conditions — zero items, cap reached, safety cap — are the
remaining disjuncts of the loop's break condition; see
`crossrefLoop_continue`/`crossrefLoop_stop_no_cursor`.) -/
theorem c9_pagination_stops (call : String → HttpRes)
    (parse : String → Nat × Option String) (b1 b2 b3 c1 c2 : String)
    (n1 n2 n3 limit maxPages : Nat)
    (hcall1 : call "*" = .ok 200 b1) (hb1 : b1 ≠ "")
    (hparse1 : parse b1 = (n1, some c1)) (hn1 : n1 ≠ 0) (hc1 : c1 ≠ "")
    (hcall2 : call c1 = .ok 200 b2) (hb2 : b2 ≠ "")
    (hparse2 : parse b2 = (n2, some c2)) (hn2 : n2 ≠ 0) (hc2 : c2 ≠ "")
    (hcall3 : call c2 = .ok 200 b3) (hb3 : b3 ≠ "")
    (hparse3 : parse b3 = (n3, none))
    (hlim : n1 + n2 < limit) (hmax : 3 ≤ maxPages) :
    paginateCrossref call parse limit maxPages = (.ok [b1, b2, b3], 3) := by
  obtain ⟨k, rfl⟩ := Nat.exists_eq_add_of_le hmax
  have e : 3 + k = (k + 2) + 1 := by omega
  rw [paginateCrossref, e]
  rw [crossrefLoop_continue call parse limit (k + 2) "*" 0 [] 0 b1 n1 c1
    hcall1 hb1 hparse1 hn1 (by omega) hc1]
  have e2 : k + 2 = (k + 1) + 1 := rfl
  rw [e2, crossrefLoop_continue call parse limit (k + 1) c1 (0 + n1) ([] ++ [b1]) (0 + 1)
    b2 n2 c2 hcall2 hb2 hparse2 hn2 (by omega) hc2]
  rw [crossrefLoop_stop_no_cursor call parse limit k c2 (0 + n1 + n2)
    (([] ++ [b1]) ++ [b2]) (0 + 1 + 1) b3 n3 hcall3 hb3 hparse3]
  simp

/-- Witness for C9: a concrete three-page server (null next cursor on page
3) yields exactly the three bodies in 3 calls. -/
theorem c9_pagination_stops_witness :
    paginateCrossref
      (fun c => if c = "*" then .ok 200 "p1"
        else if c = "c1" then .ok 200 "p2" else .ok 200 "p3")
      (fun b => if b = "p1" then (5, some "c1")
        else if b = "p2" then (5, some "c2") else (5, none))
      100 50 = (.ok ["p1", "p2", "p3"], 3) :=
  c9_pagination_stops _ _ "p1" "p2" "p3" "c1" "c2" 5 5 5 100 50
    (by decide) (by decide) (by decide) (by decide) (by decide)
    (by decide) (by decide) (by decide) (by decide) (by decide)
    (by decide) (by decide) (by decide) (by decide) (by decide)

/-- C5: the diff consists exactly of the current rows whose primary ID is
absent from the set of primary IDs of the prior run's rows; concretely, if
the prior run persisted IDs {x, y} and the current run produced {x, y, z},
the diff is the z-row alone; and when no prior run directory matches, the
lookup yields `none` (no diff, no error). -/
theorem c5_diff :
    (∀ (cur prev : List Row) (r : Row), r ∈ diffRows cur prev ↔
      (r ∈ cur ∧ ∀ p, rowPid r = some p → p ∉ prevIds prev))
    ∧ (∀ (rx ry rz : Row) (x y z : String),
        rowPid rx = some x → rowPid ry = some y → rowPid rz = some z →
        x ≠ "" → y ≠ "" → z ≠ x → z ≠ y →
        diffRows [rx, ry, rz] [rx, ry] = [rz])
    ∧ (∀ (query currentName : String) (dirs : List RunDirInfo),
        (∀ d ∈ dirs, isPrevCandidate query currentName d = false) →
        findPreviousRunDir query currentName dirs = none) := by
  refine ⟨?_, ?_, ?_⟩
  · intro cur prev r
    unfold diffRows
    rw [List.mem_filter]
    constructor
    · rintro ⟨hmem, hpred⟩
      refine ⟨hmem, ?_⟩
      intro p hp
      rw [hp] at hpred
      simpa using hpred
    · rintro ⟨hmem, h⟩
      refine ⟨hmem, ?_⟩
      cases hrp : rowPid r with
      | none => simp
      | some p => simpa using h p hrp
  · intro rx ry rz x y z hx hy hz hxe hye hzx hzy
    have hprev : prevIds [rx, ry] = [x, y] := by
      simp [prevIds, hx, hy, hxe, hye]
    simp [diffRows, hprev, hx, hy, hz, hzx, hzy]
  · intro q cn dirs h
    unfold findPreviousRunDir
    have : dirs.filter (isPrevCandidate q cn) = [] :=
      List.filter_eq_nil_iff.mpr (fun d hd => by simp [h d hd])
    rw [this]
    rfl

/-- Witness for C5: concrete three-versus-two rows with primary IDs x, y, z
give the diff [z-row]. -/
theorem c5_diff_witness :
    diffRows
      [⟨some "x", none, none, none⟩, ⟨some "y", none, none, none⟩,
       ⟨some "z", none, none, none⟩]
      [⟨some "x", none, none, none⟩, ⟨some "y", none, none, none⟩]
      = [⟨some "z", none, none, none⟩] :=
  c5_diff.2.1 _ _ _ "x" "y" "z" (by decide) (by decide) (by decide)
    (by decide) (by decide) (by decide) (by decide)

end AroAgent
